import Mathlib

/-!
Shallow embedding of `src/Matrix.Benchmarks/plotter/plotter.py`, a pandas /
matplotlib benchmark-report plotting script, together with theorems settling
the specification claims about it.

Strings are modelled as `List Char`; Python floats as the type `PFloat`
(an exact rational, NaN, or a signed infinity); a pandas DataFrame as a
`List Row` in file order, missing cells as `Option.none`.  Chart rendering is
modelled up to the data handed to matplotlib: each graph pass produces a list
of labelled series of (x, y) points; figure styling and file output are
outside the model.
-/

namespace Plotter

/-- Strings in the model: lists of characters. -/
abbrev Str := List Char

/-- Python `str.strip()` restricted to ASCII whitespace: drop whitespace from
both ends. -/
def pyStrip (s : Str) : Str :=
  ((s.dropWhile Char.isWhitespace).reverse.dropWhile Char.isWhitespace).reverse

/-- `hasPre pat s` holds when `pat` is a leading segment of `s`. -/
def hasPre : Str → Str → Bool
  | [], _ => true
  | _ :: _, [] => false
  | p :: ps, c :: cs => p = c && hasPre ps cs

/-- Python's `pat in s`: `pat` occurs as a contiguous substring of `s`. -/
def containsSub (s pat : Str) : Bool :=
  match s with
  | [] => hasPre pat []
  | _ :: rest => hasPre pat s || containsSub rest pat

/-- Fueled worker for `pyReplace`; the fuel always bounds the length of the
remaining list, so the `0` case is unreachable in actual use. -/
def pyReplaceFuel (pat repl : Str) : Nat → Str → Str
  | _, [] => []
  | 0, s => s
  | n + 1, c :: cs =>
    if hasPre pat (c :: cs) then
      repl ++ pyReplaceFuel pat repl n ((c :: cs).drop pat.length)
    else
      c :: pyReplaceFuel pat repl n cs

/-- Python `s.replace(pat, repl)`: replace every non-overlapping occurrence of
`pat`, scanning left to right.  The script only ever calls it with a non-empty
`pat`; for an empty `pat` the model returns `s` unchanged. -/
def pyReplace (pat repl s : Str) : Str :=
  if pat.isEmpty then s else pyReplaceFuel pat repl s.length s

/-- Numeric value of a digit character. -/
def digitVal (c : Char) : Nat := c.toNat - 48

/-- Value of a digit string read in base 10. -/
def digitsToNat (ds : Str) : Nat :=
  ds.foldl (fun a c => a * 10 + digitVal c) 0

/-- A Python float as the script observes it: an exact rational magnitude,
NaN, or a signed infinity.  (The script's arithmetic on parsed values is
division and multiplication by the exact constants 1000 and 1024, which are
exact in rational arithmetic for every value the claims mention.) -/
inductive PFloat where
  | num (q : ℚ)
  | nan
  | inf (neg : Bool)
deriving DecidableEq, Repr

/-- Divide a Python float by a positive natural constant (exact on the
rational magnitude, fixed on NaN and infinities, as IEEE division by 1000 or
1024 is on these special values).  Stated via `mkRat` so that the kernel can
evaluate it on concrete inputs. -/
def PFloat.divC : PFloat → ℕ → PFloat
  | .num q, c => .num (mkRat q.num (q.den * c))
  | .nan, _ => .nan
  | .inf b, _ => .inf b

/-- Multiply a Python float by a positive natural constant. -/
def PFloat.mulC : PFloat → ℕ → PFloat
  | .num q, c => .num (mkRat (q.num * (c : ℤ)) q.den)
  | .nan, _ => .nan
  | .inf b, _ => .inf b

/-- Parse the decimal part of a Python float literal:
`[digits] [. digits] [(e | E) [sign] digits]`, requiring at least one mantissa
digit and, when an exponent marker is present, at least one exponent digit.
(Underscore digit grouping, a Python lexical nicety unused by benchmark data,
is not modelled.) -/
def parseDecimal (u : Str) : Option ℚ :=
  let ip := u.takeWhile Char.isDigit
  let r1 := u.dropWhile Char.isDigit
  let fp := match r1 with
    | '.' :: r => r.takeWhile Char.isDigit
    | _ => []
  let r2 := match r1 with
    | '.' :: r => r.dropWhile Char.isDigit
    | _ => r1
  if ip.isEmpty && fp.isEmpty then none
  else
    let mantNum : ℤ := (digitsToNat ip * 10 ^ fp.length + digitsToNat fp : ℕ)
    let mantDen : ℕ := 10 ^ fp.length
    match r2 with
    | [] => some (mkRat mantNum mantDen)
    | e :: r3 =>
      if e = 'e' ∨ e = 'E' then
        let (eneg, ed) := match r3 with
          | '+' :: r => (false, r)
          | '-' :: r => (true, r)
          | r => (false, r)
        if ed.isEmpty ∨ ¬ ed.all Char.isDigit then none
        else if eneg then some (mkRat mantNum (mantDen * 10 ^ digitsToNat ed))
        else some (mkRat (mantNum * (10 : ℤ) ^ digitsToNat ed) mantDen)
      else none

/-- Python `float(s)` on a string: strip whitespace, read an optional sign,
then either `nan`, `inf`/`infinity` (case-insensitive), or a decimal literal.
`none` models the `ValueError` (the spec's `FormatError`). -/
def parsePyFloat (s : Str) : Option PFloat :=
  let t := pyStrip s
  let neg := match t with
    | '-' :: _ => true
    | _ => false
  let u := match t with
    | '+' :: r => r
    | '-' :: r => r
    | r => r
  let low := u.map Char.toLower
  if low = ['n', 'a', 'n'] then some .nan
  else if low = ['i', 'n', 'f'] ∨ low = ['i', 'n', 'f', 'i', 'n', 'i', 't', 'y'] then
    some (.inf neg)
  else
    (parseDecimal u).map fun q => .num (if neg then q.neg else q)

/-- The unit token `"ns"`. -/
def nsTok : Str := ['n', 's']

/-- The unit token `"us"`. -/
def usTok : Str := ['u', 's']

/-- The unit token `"μs"`. -/
def musTok : Str := ['μ', 's']

/-- The unit token `"ms"`. -/
def msTok : Str := ['m', 's']

/-- The separator token `","`. -/
def commaTok : Str := [',']

/-- `convert_to_us` from `plotter.py` (lines 7-16): strip the string, then by
substring containment in priority order convert `ns` (divide by 1000),
`us`/`μs` (unchanged), `ms` (multiply by 1000), or parse the bare text as
microseconds; in every branch the matched unit token and then the `","`
separators are removed by `str.replace` before `float(...)` parses the rest.
`none` models the `ValueError` the Python `float` call raises. -/
def convert_to_us (cell : Str) : Option PFloat :=
  let t := pyStrip cell
  if containsSub t nsTok then
    (parsePyFloat (pyReplace commaTok [] (pyReplace nsTok [] t))).map (PFloat.divC · 1000)
  else if containsSub t usTok || containsSub t musTok then
    parsePyFloat (pyReplace commaTok [] (pyReplace musTok [] (pyReplace usTok [] t)))
  else if containsSub t msTok then
    (parsePyFloat (pyReplace commaTok [] (pyReplace msTok [] t))).map (PFloat.mulC · 1000)
  else
    parsePyFloat (pyReplace commaTok [] t)

/-- The text `convert_to_us` actually sees for a `Mean` cell: the script calls
`str(time_str)`, and pandas represents a missing cell as the float NaN, whose
`str()` is the three-character text `"nan"`. -/
def meanCellText : Option Str → Str
  | some s => s
  | none => ['n', 'a', 'n']

/-- Applying `convert_to_us` to a `Mean` cell, missing cells included. -/
def convertMeanCell (c : Option Str) : Option PFloat :=
  convert_to_us (meanCellText c)

/-- One row of the loaded report (`df` after `pd.read_csv`): the columns the
script uses.  Missing cells (pandas NaN) are `none`. -/
structure Row where
  Method : Option Str
  Size : ℤ
  Mean : Option Str
  Allocated : Option Str
deriving DecidableEq, Repr

/-- A row after the normalization pass of line 18 added the derived `Mean_us`
column. -/
structure NRow extends Row where
  Mean_us : PFloat
deriving DecidableEq, Repr

/-- Line 18, `df['Mean_us'] = df['Mean'].apply(convert_to_us)`: convert every
`Mean` cell in row order; the whole pass fails (the script aborts) as soon as
one cell fails. -/
def addMeanUs : List Row → Option (List NRow)
  | [] => some []
  | r :: rs =>
    match convertMeanCell r.Mean with
    | none => none
    | some v =>
      match addMeanUs rs with
      | none => none
      | some rest => some (NRow.mk r v :: rest)

/-- Line 22 (and again line 78), `df[df['Method'].str.contains('Fill',
na=False)]`: keep the rows whose `Method` contains the substring `"Fill"`;
`na=False` drops rows with a missing `Method`. -/
def fill_methods (df : List NRow) : List NRow :=
  df.filter fun r =>
    match r.Method with
    | some m => containsSub m (("Fill").data)
    | none => false

/-- Line 41, `df[df['Method'].str.contains('ForEach', na=False)]`. -/
def foreach_methods (df : List NRow) : List NRow :=
  df.filter fun r =>
    match r.Method with
    | some m => containsSub m (("ForEach").data)
    | none => false

/-- Line 59, `df[df['Method'].isin(['GetRow', 'GetColumn'])]`: exact set
membership of the `Method` value; a missing `Method` is in no such set. -/
def read_methods (df : List NRow) : List NRow :=
  df.filter fun r =>
    r.Method = some (("GetRow").data) || r.Method = some (("GetColumn").data)

/-- Line 76, `df[df['Allocated'].notna()]`: keep the rows whose `Allocated`
cell is present. -/
def allocated_data (df : List NRow) : List NRow :=
  df.filter fun r => r.Allocated.isSome

/-- The generic selection the spec describes for both the Fill and the
ForEach charts: keep rows whose `Method` contains the given substring,
excluding rows with a missing `Method`. -/
def methodSubstrFilter (pat : Str) (df : List NRow) : List NRow :=
  df.filter fun r =>
    match r.Method with
    | some m => containsSub m pat
    | none => false

/-- `pandas.Series.unique` on the `Method` column: distinct values in order
of first appearance, via an accumulator of values already seen. -/
def dedupKeepFirst (seen : List (Option Str)) : List (Option Str) → List (Option Str)
  | [] => []
  | x :: xs =>
    if x ∈ seen then dedupKeepFirst seen xs
    else x :: dedupKeepFirst (x :: seen) xs

/-- `sub['Method'].unique()` for a filtered frame `sub`. -/
def uniqueMethods (df : List NRow) : List (Option Str) :=
  dedupKeepFirst [] (df.map fun r => r.Method)

/-- One plotted line series: its legend label (the method) and its (Size, y)
points in row order. -/
structure Series where
  label : Option Str
  points : List (ℤ × PFloat)
deriving DecidableEq, Repr

/-- The timing series a graph block builds from a filtered frame `sub`: for
each method of `sub['Method'].unique()`, the (Size, Mean_us) points of
`sub[sub['Method'] == method]` in row order.  Graphs 1-3 (lines 25-27, 44-46,
60-62) all follow this shape. -/
def timingSeries (sub : List NRow) : List Series :=
  (uniqueMethods sub).map fun m =>
    Series.mk m (((sub.filter fun r => r.Method = m).map fun r => (r.Size, r.Mean_us)))

/-- Graph 1 (Fill comparison): the series handed to matplotlib. -/
def graph1Series (df : List NRow) : List Series :=
  timingSeries (fill_methods df)

/-- Graph 2 (ForEach comparison). -/
def graph2Series (df : List NRow) : List Series :=
  timingSeries (foreach_methods df)

/-- Graph 3 (read operations). -/
def graph3Series (df : List NRow) : List Series :=
  timingSeries (read_methods df)

/-- The token `" B"` removed from `Allocated` strings. -/
def bTok : Str := [' ', 'B']

/-- Line 82, `data['Allocated'].str.replace(' B', '').str.replace(',',
'').astype(float) / 1024`: remove every occurrence of `" B"`, then every
`","`, parse as a float, divide by 1024.  `none` models the conversion error
`astype(float)` raises on unparseable text. -/
def allocConvert (s : Str) : Option PFloat :=
  (parsePyFloat (pyReplace commaTok [] (pyReplace bTok [] s))).map (PFloat.divC · 1024)

/-- The `Allocated`-to-KB value of one row.  In the script this only runs on
rows that passed `notna()`; on a missing cell the pandas `.str` accessor
would propagate NaN and `astype(float)` would keep it, hence the `none`
branch. -/
def rowAllocKB (r : NRow) : Option PFloat :=
  match r.Allocated with
  | some s => allocConvert s
  | none => some .nan

/-- The (Size, Allocated-KB) points of a frame in row order; `none` as soon
as one `Allocated` cell fails to convert. -/
def allocPoints : List NRow → Option (List (ℤ × PFloat))
  | [] => some []
  | r :: rs =>
    match rowAllocKB r with
    | none => none
    | some v =>
      match allocPoints rs with
      | none => none
      | some ps => some ((r.Size, v) :: ps)

/-- Worker for graph 4 (lines 80-84): walk the unique Fill methods; for each,
take its rows among the allocation rows, skip the method if that frame is
empty (`if not data.empty`), otherwise convert every `Allocated` cell — a
conversion error aborts the script (`none`). -/
def graph4Aux (ad : List NRow) : List (Option Str) → Option (List Series)
  | [] => some []
  | m :: ms =>
    if (ad.filter fun r => r.Method = m).isEmpty then graph4Aux ad ms
    else
      match allocPoints (ad.filter fun r => r.Method = m) with
      | none => none
      | some pts =>
        match graph4Aux ad ms with
        | none => none
        | some rest => some (Series.mk m pts :: rest)

/-- Graph 4 (memory allocation): the series handed to matplotlib, or `none`
when a conversion error aborts the script. -/
def graph4Series (df : List NRow) : Option (List Series) :=
  graph4Aux (allocated_data df) (uniqueMethods (fill_methods df))

/-! ### Spec-side definitions

These follow the specification's words rather than the source, for comparison
with the definitions above. -/

/-- The timing normalizer as the specification words it: strip surrounding
whitespace; inspect for unit substrings in priority order — `ns` (divide by
1000), `us` or `μs` (unchanged), `ms` (multiply by 1000); with no unit match,
parse the text directly as bare microseconds; before numeric parsing, remove
the matched unit token and the `","` separators. -/
def normalizeSpec (cell : Str) : Option PFloat :=
  let t := pyStrip cell
  if containsSub t nsTok then
    (parsePyFloat (pyReplace commaTok [] (pyReplace nsTok [] t))).map (PFloat.divC · 1000)
  else if containsSub t usTok || containsSub t musTok then
    parsePyFloat (pyReplace commaTok [] (pyReplace musTok [] (pyReplace usTok [] t)))
  else if containsSub t msTok then
    (parsePyFloat (pyReplace commaTok [] (pyReplace msTok [] t))).map (PFloat.mulC · 1000)
  else
    parsePyFloat (pyReplace commaTok [] t)

/-- The text left once the timing normalizer has stripped the surrounding
whitespace, the matched unit token(s) and the `","` separators: the text
whose numeric validity decides success, per the spec's failure clause. -/
def strippedText (cell : Str) : Str :=
  let t := pyStrip cell
  if containsSub t nsTok then
    pyReplace commaTok [] (pyReplace nsTok [] t)
  else if containsSub t usTok || containsSub t musTok then
    pyReplace commaTok [] (pyReplace musTok [] (pyReplace usTok [] t))
  else if containsSub t msTok then
    pyReplace commaTok [] (pyReplace msTok [] t)
  else
    pyReplace commaTok [] t

/-- `endsWithTok s tok` holds when `tok` is a trailing segment of `s`. -/
def endsWithTok (s tok : Str) : Bool :=
  hasPre tok.reverse s.reverse

/-- The `Allocated` conversion as the claim words it: strip the **trailing**
`" B"` suffix (only), remove the `","` separators, parse as a float, divide
by 1024. -/
def allocConvertSpec (s : Str) : Option PFloat :=
  let t := if endsWithTok s bTok then s.take (s.length - 2) else s
  (parsePyFloat (pyReplace commaTok [] t)).map (PFloat.divC · 1024)

/-- The closed form graph 4 takes whenever it does not abort: one series per
unique Fill method whose frame among the allocation rows is non-empty, its
points the successfully converted (Size, Allocated-KB) pairs in row order. -/
def graph4SeriesShape (df : List NRow) : List Series :=
  (uniqueMethods (fill_methods df)).filterMap fun m =>
    if ((allocated_data df).filter fun r => r.Method = m).isEmpty then none
    else (allocPoints ((allocated_data df).filter fun r => r.Method = m)).map (Series.mk m)

/-! ### The load-report operation

The loading step (lines 4-5) is a call into pandas, `pd.read_csv(path,
delimiter=';')`, whose file handling and CSV parsing are outside this
repository; the header check the spec ascribes to loading surfaces in the
script as the column accesses of lines 18-84.  The model below is therefore
written from the specification. -/

/-- Outcome of loading the report. -/
inductive LoadResult where
  | notFound
  | parseErr
  | ok (rows : List (List Str))
deriving DecidableEq, Repr

/-- Split a string at every occurrence of the character `c`. -/
def splitOnCh (c : Char) : Str → List Str
  | [] => [[]]
  | d :: rest =>
    let r := splitOnCh c rest
    if d = c then [] :: r
    else
      match r with
      | [] => [[d]]
      | x :: xs => (d :: x) :: xs

/-- The four columns the script reads. -/
def requiredCols : List Str :=
  [("Method").data, ("Size").data, ("Mean").data, ("Allocated").data]

/-- Modelled from the spec: the load-report operation.  `pd.read_csv` and the
filesystem are external to the repository, so this follows the spec's words:
fail with `NotFoundError` when the path is absent from the filesystem
(modelled as a partial map from paths to file contents); split the content
into `'\n'`-separated lines and each line into `';'`-separated fields; fail
with `ParseError` when there is no header line or the header lacks one of the
required columns `Method`, `Size`, `Mean`, `Allocated`; otherwise return the
data rows in file order. -/
def loadReport (fs : Str → Option Str) (path : Str) : LoadResult :=
  match fs path with
  | none => .notFound
  | some content =>
    match splitOnCh '\n' content with
    | [] => .parseErr
    | header :: rest =>
      let cols := splitOnCh ';' header
      if requiredCols.all fun c => cols.contains c then
        .ok (rest.map (splitOnCh ';'))
      else .parseErr

/-! ### The module body as four render passes

After line 18 the script renders the four graphs in sequence.  Each pass is
modelled as a state transformer on the loaded table returning the table it
leaves behind together with the series it hands to matplotlib (`none` for
the abort graph 4 can raise); none of the four blocks assigns to `df`, so
each translated pass returns its input table unchanged. -/

/-- A render pass: table in, table out plus chart data. -/
abbrev Pass := List NRow → List NRow × Option (List Series)

/-- The Graph 1 block (lines 22-38). -/
def pass1 : Pass := fun df => (df, some (graph1Series df))

/-- The Graph 2 block (lines 41-57). -/
def pass2 : Pass := fun df => (df, some (graph2Series df))

/-- The Graph 3 block (lines 59-73). -/
def pass3 : Pass := fun df => (df, some (graph3Series df))

/-- The Graph 4 block (lines 76-93). -/
def pass4 : Pass := fun df => (df, graph4Series df)

/-- The script's four passes in program order. -/
def allPasses : List Pass := [pass1, pass2, pass3, pass4]

/-- Run a sequence of passes, threading the table through and collecting each
pass's chart data. -/
def runPasses : List Pass → List NRow → List NRow × List (Option (List Series))
  | [], df => (df, [])
  | p :: ps, df =>
    ((runPasses ps (p df).1).1, (p df).2 :: (runPasses ps (p df).1).2)

/-! ### Concrete data

Small concrete rows and tables, drawn from the spec's end-to-end scenario,
used to instantiate the universally quantified theorems below. -/

/-- Scenario row: `("Fill_100", 100, "50us", "1,024 B")`, normalized. -/
def wFill100 : NRow :=
  NRow.mk (Row.mk (some (("Fill_100").data)) 100 (some (("50us").data))
    (some (("1,024 B").data))) (.num 50)

/-- Scenario row: `("Fill_200", 200, "100us", "2,048 B")`, normalized. -/
def wFill200 : NRow :=
  NRow.mk (Row.mk (some (("Fill_200").data)) 200 (some (("100us").data))
    (some (("2,048 B").data))) (.num 100)

/-- A `GetRow` row without an `Allocated` cell. -/
def wGetRow : NRow :=
  NRow.mk (Row.mk (some (("GetRow").data)) 10 (some (("1us").data)) none) (.num 1)

/-- A `GetRowFast` row: matched by the substring `"GetRow"` but not by the
exact-membership read filter. -/
def wGetRowFast : NRow :=
  NRow.mk (Row.mk (some (("GetRowFast").data)) 10 (some (("1us").data)) none) (.num 1)

/-- A `ForEach_100` row. -/
def wForEach100 : NRow :=
  NRow.mk (Row.mk (some (("ForEach_100").data)) 100 (some (("2us").data)) none) (.num 2)

/-- A row with a missing `Method` cell. -/
def wNoMethod : NRow :=
  NRow.mk (Row.mk none 5 (some (("3us").data)) none) (.num 3)

/-- A row no chart selects: its `Method` matches no filter and it has no
`Allocated` cell. -/
def wOther : NRow :=
  NRow.mk (Row.mk (some (("Other").data)) 1 (some (("1us").data)) none) (.num 1)

/-- The concrete normalized table combining the rows above. -/
def wTable : List NRow :=
  [wFill100, wFill200, wGetRow, wGetRowFast, wForEach100, wNoMethod]

/-- A table none of the four chart filters matches. -/
def wQuiet : List NRow := [wOther]

/-- The memory series the scenario expects: `(100, 1.0)` KB for `Fill_100`
and `(200, 2.0)` KB for `Fill_200`. -/
def wMemSeries : List Series :=
  [Series.mk (some (("Fill_100").data)) [((100 : ℤ), .num 1)],
    Series.mk (some (("Fill_200").data)) [((200 : ℤ), .num 2)]]

/-- A raw row whose `Mean` cell is present. -/
def wRawOk : Row :=
  Row.mk (some (("Fill_100").data)) 100 (some (("50us").data)) none

/-- A raw row whose `Mean` cell is missing. -/
def wRawNoMean : Row :=
  Row.mk (some (("Fill_200").data)) 200 none none

/-- A raw table mixing present and missing `Mean` cells. -/
def wRawTable : List Row := [wRawOk, wRawNoMean]

/-- A one-file filesystem for the load-report theorem. -/
def wfs : Str → Option Str :=
  fun p =>
    if p = ("report.csv").data then
      some (("Method;Size;Mean;Allocated\nGetRow;10;1us;NA").data)
    else none

/-! ### Theorems -/

/-- C1: For every Mean string, the timing normalizer first strips surrounding
whitespace, then inspects unit substrings in priority order: with `"ns"`
present the numeric value (with `","` separators removed) is divided by 1000;
otherwise with `"us"` or `"μs"` present the value is unchanged; otherwise
with `"ms"` present the value is multiplied by 1000; otherwise the text (with
`","` removed) is parsed directly as a number of microseconds — i.e. the
source normalizer coincides with the spec's algorithm on every input. -/
theorem c1_normalizer_matches_spec : ∀ s : Str, convert_to_us s = normalizeSpec s :=
  fun _ => rfl

/-- C2: the timing normalizer returns exactly 1.0 on `"1000ns"` and `"1us"`,
1000.0 on `"1ms"`, 1234.0 on `"1,234us"`, and 500.0 on the bare `"500"`. -/
theorem c2_concrete_values :
    convert_to_us (("1000ns").data) = some (.num 1)
    ∧ convert_to_us (("1us").data) = some (.num 1)
    ∧ convert_to_us (("1ms").data) = some (.num 1000)
    ∧ convert_to_us (("1,234us").data) = some (.num 1234)
    ∧ convert_to_us (("500").data) = some (.num 500) := by
  decide

/-- C6: for every Mean string, timing normalization fails exactly when, after
stripping the matched unit token and the `","` separators, the remaining text
is not a valid number (and succeeds whenever that text is one). -/
theorem c6_failure_iff (s : Str) :
    convert_to_us s = none ↔ parsePyFloat (strippedText s) = none := by
  unfold convert_to_us strippedText
  dsimp only
  split_ifs <;> simp [Option.map_eq_none']

/-- Witness for C6 at the concrete input `"abcus"`: stripping leaves the
invalid text `"abc"`, and normalization indeed fails. -/
theorem c6_failure_iff_witness : convert_to_us (("abcus").data) = none :=
  (c6_failure_iff (("abcus").data)).mpr (by decide)

/-- C4: the read-operations selection keeps exactly the rows of the table
whose `Method` is `"GetRow"` or `"GetColumn"` — exact set membership — and
every row whose `Method` is `"GetRowFast"` is excluded. -/
theorem c4_read_exact_membership (df : List NRow) :
    (∀ r : NRow, r ∈ read_methods df ↔
      r ∈ df ∧ (r.Method = some (("GetRow").data) ∨ r.Method = some (("GetColumn").data)))
    ∧ ∀ r ∈ df, r.Method = some (("GetRowFast").data) → r ∉ read_methods df := by
  constructor
  · intro r
    simp [read_methods, List.mem_filter]
  · intro r hr hm hmem
    simp only [read_methods, List.mem_filter] at hmem
    rw [hm] at hmem
    exact absurd hmem.2 (by decide)

/-- Witness for C4: in the concrete table, the `GetRow` row is selected and
the `GetRowFast` row is not. -/
theorem c4_read_exact_membership_witness :
    wGetRow ∈ read_methods wTable ∧ wGetRowFast ∉ read_methods wTable :=
  ⟨((c4_read_exact_membership wTable).1 wGetRow).mpr (by decide),
    (c4_read_exact_membership wTable).2 wGetRowFast (by decide) (by decide)⟩

/-- C5: the Fill-comparison selection keeps exactly the rows whose `Method`
contains the substring `"Fill"` (rows with a missing `Method` excluded), and
the ForEach-comparison selection applies the identical algorithm with the
substring `"ForEach"`. -/
theorem c5_substring_selections (df : List NRow) :
    fill_methods df = methodSubstrFilter (("Fill").data) df
    ∧ foreach_methods df = methodSubstrFilter (("ForEach").data) df
    ∧ (∀ r : NRow, r ∈ fill_methods df ↔
        r ∈ df ∧ ∃ m, r.Method = some m ∧ containsSub m (("Fill").data) = true)
    ∧ (∀ r : NRow, r ∈ foreach_methods df ↔
        r ∈ df ∧ ∃ m, r.Method = some m ∧ containsSub m (("ForEach").data) = true) := by
  refine ⟨rfl, rfl, fun r => ?_, fun r => ?_⟩ <;>
  · simp only [fill_methods, foreach_methods, List.mem_filter]
    refine and_congr_right fun _ => ?_
    cases h : r.Method <;> simp [h]

/-- Witness for C5: in the concrete table, the `Fill_100` row passes the Fill
filter, the row with a missing `Method` does not, and the `ForEach_100` row
passes the ForEach filter. -/
theorem c5_substring_selections_witness :
    wFill100 ∈ fill_methods wTable
    ∧ wNoMethod ∉ fill_methods wTable
    ∧ wForEach100 ∈ foreach_methods wTable :=
  ⟨((c5_substring_selections wTable).2.2.1 wFill100).mpr
      ⟨by decide, (("Fill_100").data), rfl, by decide⟩,
    fun hmem => by
      obtain ⟨-, m, hm, -⟩ := ((c5_substring_selections wTable).2.2.1 wNoMethod).mp hmem
      exact Option.noConfusion hm,
    ((c5_substring_selections wTable).2.2.2 wForEach100).mpr
      ⟨by decide, (("ForEach_100").data), rfl, by decide⟩⟩

/-- Whenever graph 4 does not abort, its series take the closed shape
`graph4SeriesShape`: one series per unique method whose frame among `ad` is
non-empty, skipping the empty ones. -/
theorem graph4Aux_shape (ad : List NRow) :
    ∀ (ms : List (Option Str)) (ss : List Series), graph4Aux ad ms = some ss →
      ss = ms.filterMap fun m =>
        if (ad.filter fun r => r.Method = m).isEmpty then none
        else (allocPoints (ad.filter fun r => r.Method = m)).map (Series.mk m) := by
  intro ms
  induction ms with
  | nil =>
    intro ss h
    simp only [graph4Aux, Option.some_inj] at h
    simp [h.symm]
  | cons m ms ih =>
    intro ss h
    rw [graph4Aux] at h
    rw [List.filterMap_cons]
    by_cases hd : (ad.filter fun r => r.Method = m).isEmpty
    · rw [if_pos hd] at h
      rw [if_pos hd]
      exact ih ss h
    · rw [if_neg hd] at h
      rw [if_neg hd]
      cases hp : allocPoints (ad.filter fun r => r.Method = m) with
      | none => rw [hp] at h; exact absurd h (by simp)
      | some pts =>
        rw [hp] at h
        cases hr : graph4Aux ad ms with
        | none => rw [hr] at h; exact absurd h (by simp)
        | some rest =>
          rw [hr] at h
          simp only [Option.some_inj] at h
          rw [h.symm, ih rest hr]
          simp

/-- Graph 4 over an empty allocation frame never aborts and emits nothing,
whatever the method list. -/
theorem graph4Aux_nil (ms : List (Option Str)) : graph4Aux [] ms = some [] := by
  induction ms with
  | nil => rfl
  | cons m ms ih => rw [graph4Aux]; simpa using ih

/-- C3 counterexample: on the concrete string `"2 B3"` the script's
conversion removes the inner `" B"` occurrence and yields 23/1024 KB, while
the claim's procedure — stripping only a *trailing* `" B"` suffix — leaves
text that is not a valid number. -/
theorem c3_memory_view_counterexample :
    allocConvert (("2 B3").data) = some (.num (mkRat 23 1024))
    ∧ allocConvertSpec (("2 B3").data) = none := by
  decide

/-- C3 (amended): the memory-allocation view selects exactly the rows whose
`Allocated` field is present; for each Method containing `"Fill"` it
intersects with the allocated-present rows by method identity and skips a
method whose intersected frame is empty; each `Allocated` string is converted
to kilobytes by removing every occurrence of `" B"` (equivalently, on
well-formed values, the trailing suffix) and the `","` separators, parsing as
a float and dividing by 1024; in particular `"2,048 B"` converts to exactly
2.0 KB. -/
theorem c3_memory_view (df : List NRow) :
    (∀ r : NRow, r ∈ allocated_data df ↔ r ∈ df ∧ r.Allocated.isSome = true)
    ∧ (∀ ss, graph4Series df = some ss → ss = graph4SeriesShape df)
    ∧ allocConvert (("2,048 B").data) = some (.num 2) := by
  refine ⟨fun r => ?_, fun ss h => ?_, by decide⟩
  · simp [allocated_data, List.mem_filter]
  · exact graph4Aux_shape (allocated_data df) (uniqueMethods (fill_methods df)) ss h

/-- Witness for C3 on the spec's end-to-end table: the `Fill_100` row is in
the allocation view, and graph 4 produces exactly the two expected series,
`(100, 1.0)` KB and `(200, 2.0)` KB. -/
theorem c3_memory_view_witness :
    wFill100 ∈ allocated_data wTable ∧ wMemSeries = graph4SeriesShape wTable :=
  ⟨((c3_memory_view wTable).1 wFill100).mpr (by decide),
    (c3_memory_view wTable).2.1 wMemSeries (by decide)⟩

/-- C8: each of the four chart passes, applied to a table with zero rows
matching that pass's filter, produces zero series and does not abort (for
graph 4, both an empty allocation view and an empty Fill selection give zero
series). -/
theorem c8_empty_filter_zero_series (df : List NRow) :
    (fill_methods df = [] → graph1Series df = [])
    ∧ (foreach_methods df = [] → graph2Series df = [])
    ∧ (read_methods df = [] → graph3Series df = [])
    ∧ (allocated_data df = [] → graph4Series df = some [])
    ∧ (fill_methods df = [] → graph4Series df = some []) := by
  refine ⟨fun h => ?_, fun h => ?_, fun h => ?_, fun h => ?_, fun h => ?_⟩
  · unfold graph1Series; rw [h]; rfl
  · unfold graph2Series; rw [h]; rfl
  · unfold graph3Series; rw [h]; rfl
  · unfold graph4Series; rw [h]; exact graph4Aux_nil _
  · unfold graph4Series; rw [h]; rfl

/-- Witness for C8 on a table none of the filters matches: all four charts
get zero series. -/
theorem c8_empty_filter_zero_series_witness :
    graph1Series wQuiet = [] ∧ graph2Series wQuiet = [] ∧ graph3Series wQuiet = []
    ∧ graph4Series wQuiet = some [] :=
  ⟨(c8_empty_filter_zero_series wQuiet).1 (by decide),
    (c8_empty_filter_zero_series wQuiet).2.1 (by decide),
    (c8_empty_filter_zero_series wQuiet).2.2.1 (by decide),
    (c8_empty_filter_zero_series wQuiet).2.2.2.1 (by decide)⟩

/-- Running passes that each leave the table unchanged returns the table
unchanged, and each pass's output depends only on the table. -/
theorem runPasses_readonly (df : List NRow) :
    ∀ l : List Pass, (∀ p ∈ l, (p df).1 = df) →
      runPasses l df = (df, l.map fun p => (p df).2) := by
  intro l
  induction l with
  | nil => intro _; rfl
  | cons p ps ih =>
    intro h
    have hp : (p df).1 = df := h p (List.mem_cons_self p ps)
    rw [runPasses, hp, ih fun q hq => h q (List.mem_cons_of_mem p hq)]
    rfl

/-- C9: after normalization the table is read-only — every render pass
returns the table it was given — and hence the four passes are
order-insensitive: run in any permuted order, the table comes back unchanged
and every pass produces exactly the chart data it computes from the original
table. -/
theorem c9_passes_readonly_commute (df : List NRow) :
    (∀ p ∈ allPasses, (p df).1 = df)
    ∧ ∀ l : List Pass, l.Perm allPasses →
        (runPasses l df).1 = df ∧ (runPasses l df).2 = l.map fun p => (p df).2 := by
  have hall : ∀ p ∈ allPasses, (p df).1 = df := by
    intro p hp
    simp only [allPasses, List.mem_cons, List.not_mem_nil, or_false] at hp
    rcases hp with h | h | h | h <;> subst h <;> rfl
  refine ⟨hall, fun l hl => ?_⟩
  have h := runPasses_readonly df l fun p hp => hall p (hl.mem_iff.mp hp)
  exact ⟨by rw [h], by rw [h]⟩

/-- Witness for C9: the four passes run with the first two swapped still hand
back the table and produce each pass's own chart data. -/
theorem c9_passes_readonly_commute_witness :
    (runPasses [pass2, pass1, pass3, pass4] wTable).1 = wTable
    ∧ (runPasses [pass2, pass1, pass3, pass4] wTable).2
      = List.map (fun p => (p wTable).2) [pass2, pass1, pass3, pass4] :=
  (c9_passes_readonly_commute wTable).2 [pass2, pass1, pass3, pass4]
    (List.Perm.swap pass1 pass2 [pass3, pass4])

/-- C10: a missing Mean cell does not make normalization fail: `str()`
coerces it to the text `"nan"`, which parses as the float NaN, so the pass
assigns that row a NaN `Mean_us`; consequently the pass succeeds whenever
every present Mean cell converts, and every missing-Mean row ends up with
`Mean_us = NaN`. -/
theorem c10_missing_mean_is_nan (df : List Row) :
    meanCellText none = (("nan").data)
    ∧ convertMeanCell none = some PFloat.nan
    ∧ ((∀ r ∈ df, r.Mean ≠ none → (convertMeanCell r.Mean).isSome = true) →
        ∃ ndf, addMeanUs df = some ndf ∧ ndf.length = df.length
          ∧ ∀ (i : ℕ) (h1 : i < df.length) (h2 : i < ndf.length),
              (df.get ⟨i, h1⟩).Mean = none → (ndf.get ⟨i, h2⟩).Mean_us = PFloat.nan) := by
  refine ⟨rfl, by decide, ?_⟩
  induction df with
  | nil =>
    intro _
    exact ⟨[], rfl, rfl, fun i h1 => absurd h1 (Nat.not_lt_zero i)⟩
  | cons r rs ih =>
    intro h
    have hhead : ∃ v, convertMeanCell r.Mean = some v ∧ (r.Mean = none → v = PFloat.nan) := by
      cases hm : r.Mean with
      | none => exact ⟨PFloat.nan, by decide, fun _ => rfl⟩
      | some s =>
        have hne : r.Mean ≠ none := by rw [hm]; exact Option.some_ne_none s
        obtain ⟨v, hv⟩ :=
          Option.isSome_iff_exists.mp (h r (List.mem_cons_self r rs) hne)
        rw [hm] at hv
        exact ⟨v, hv, fun hc => Option.noConfusion hc⟩
    obtain ⟨v, hv, hvnan⟩ := hhead
    obtain ⟨ndf, hndf, hlen, hnan⟩ := ih fun q hq => h q (List.mem_cons_of_mem r hq)
    refine ⟨NRow.mk r v :: ndf, by rw [addMeanUs, hv, hndf], by simp [hlen], ?_⟩
    intro i h1 h2 hm
    cases i with
    | zero => exact hvnan hm
    | succ j => exact hnan j (Nat.lt_of_succ_lt_succ h1) (Nat.lt_of_succ_lt_succ h2) hm

/-- Witness for C10 on a table whose second row has no Mean cell: the
normalization pass still succeeds. -/
theorem c10_missing_mean_is_nan_witness :
    convertMeanCell none = some PFloat.nan ∧ (addMeanUs wRawTable).isSome = true := by
  refine ⟨(c10_missing_mean_is_nan wRawTable).2.1, ?_⟩
  obtain ⟨ndf, h, -, -⟩ := (c10_missing_mean_is_nan wRawTable).2.2 (by decide)
  rw [h]
  rfl

/-- C7 (spec-modelled): the load-report operation fails with `NotFoundError`
when the path does not exist, fails with `ParseError` when the header misses
one of the required columns `Method`, `Size`, `Mean`, `Allocated`, and on
success returns the data rows in file order. -/
theorem c7_load_report (fs : Str → Option Str) (path : Str) :
    (fs path = none → loadReport fs path = .notFound)
    ∧ ∀ content header rest, fs path = some content →
        splitOnCh '\n' content = header :: rest →
          ((¬ ∀ c ∈ requiredCols, (splitOnCh ';' header).contains c = true) →
              loadReport fs path = .parseErr)
          ∧ ((∀ c ∈ requiredCols, (splitOnCh ';' header).contains c = true) →
              loadReport fs path = .ok (rest.map (splitOnCh ';'))) := by
  constructor
  · intro h
    simp only [loadReport, h]
  · intro content header rest hc hs
    constructor
    · intro hmiss
      simp only [loadReport, hc, hs]
      rw [if_neg fun hall => hmiss (List.all_eq_true.mp hall)]
    · intro hok
      simp only [loadReport, hc, hs]
      rw [if_pos (List.all_eq_true.mpr hok)]

/-- Witness for C7: a one-file filesystem — a missing path is `NotFoundError`
and the present report loads to its single data row. -/
theorem c7_load_report_witness :
    loadReport wfs (("missing.csv").data) = .notFound
    ∧ loadReport wfs (("report.csv").data)
      = .ok [[(("GetRow").data), (("10").data), (("1us").data), (("NA").data)]] :=
  ⟨(c7_load_report wfs (("missing.csv").data)).1 (by decide),
    ((c7_load_report wfs (("report.csv").data)).2
      (("Method;Size;Mean;Allocated\nGetRow;10;1us;NA").data)
      (("Method;Size;Mean;Allocated").data)
      [(("GetRow;10;1us;NA").data)]
      (by decide) (by decide)).2 (by decide)⟩

end Plotter
